import Mathlib

/-!
Verification of the Titanic dashboard data-transformation layer
(`apputil.py`): `survival_demographics`, `family_groups`, `last_names`,
`determine_age_division`, and the grouped summary inside
`visualize_age_division`.

The base table is modelled as a `List Passenger`; one `Passenger` is one
row of the loaded CSV with the columns the aggregators touch.  Ages and
fares are decimals in the data and are modelled as `ℚ`; a column that can
be absent (`NaN`) is an `Option`.  The `Survived` column is a 0/1 flag and
is modelled as `Bool` (its pandas `sum` is then a `countP`).  Each pandas
pipeline is embedded as a Lean function on `List Passenger`; the stable
`sort_values` steps are embedded as `List.insertionSort` on the same keys.
-/

/-- One row of the loaded Titanic table (the columns used by
`apputil.py`).  `age` and `fare` are nullable decimal columns; `sibSp`
and `parch` are nullable counts (the code applies `fillna(0)` to them). -/
structure Passenger where
  passengerId : Nat
  survived : Bool
  pclass : Nat
  name : String
  sex : String
  age : Option ℚ
  sibSp : Option Nat
  parch : Option Nat
  fare : Option ℚ
deriving DecidableEq

/-- The four fixed age-bucket labels of `survival_demographics`. -/
inductive AgeGroup where
  | Child
  | Teen
  | Adult
  | Senior
deriving DecidableEq

/-- The label list `labels = ["Child", "Teen", "Adult", "Senior"]`, in the
fixed order used both by `pd.cut` and by the cartesian product. -/
def ageLabels : List AgeGroup := [.Child, .Teen, .Adult, .Senior]

/-- Embedding of
`pd.cut(df["Age"], bins=[0,12,19,59,120], labels=..., right=True,
include_lowest=True)` applied to one age value: the cut intervals are
`[0,12]`, `(12,19]`, `(19,59]`, `(59,120]`; a missing age or an age
outside `[0,120]` yields no bucket (`NaN`). -/
def age_group : Option ℚ → Option AgeGroup
  | none => none
  | some a =>
    if 0 ≤ a ∧ a ≤ 12 then some .Child
    else if 12 < a ∧ a ≤ 19 then some .Teen
    else if 19 < a ∧ a ≤ 59 then some .Adult
    else if 59 < a ∧ a ≤ 120 then some .Senior
    else none

lemma age_group_some (a : ℚ) :
    age_group (some a) =
      if 0 ≤ a ∧ a ≤ 12 then some .Child
      else if 12 < a ∧ a ≤ 19 then some .Teen
      else if 19 < a ∧ a ≤ 59 then some .Adult
      else if 59 < a ∧ a ≤ 120 then some .Senior
      else none := rfl

lemma ag_child {a : ℚ} (h1 : 0 ≤ a) (h2 : a ≤ 12) :
    age_group (some a) = some .Child := by
  rw [age_group_some, if_pos ⟨h1, h2⟩]

lemma ag_teen {a : ℚ} (h1 : 12 < a) (h2 : a ≤ 19) :
    age_group (some a) = some .Teen := by
  rw [age_group_some, if_neg (by rintro ⟨x, y⟩; linarith), if_pos ⟨h1, h2⟩]

lemma ag_adult {a : ℚ} (h1 : 19 < a) (h2 : a ≤ 59) :
    age_group (some a) = some .Adult := by
  rw [age_group_some, if_neg (by rintro ⟨x, y⟩; linarith),
    if_neg (by rintro ⟨x, y⟩; linarith), if_pos ⟨h1, h2⟩]

lemma ag_senior {a : ℚ} (h1 : 59 < a) (h2 : a ≤ 120) :
    age_group (some a) = some .Senior := by
  rw [age_group_some, if_neg (by rintro ⟨x, y⟩; linarith),
    if_neg (by rintro ⟨x, y⟩; linarith), if_neg (by rintro ⟨x, y⟩; linarith),
    if_pos ⟨h1, h2⟩]

lemma ag_none_neg {a : ℚ} (h : a < 0) : age_group (some a) = none := by
  rw [age_group_some, if_neg (by rintro ⟨x, y⟩; linarith),
    if_neg (by rintro ⟨x, y⟩; linarith), if_neg (by rintro ⟨x, y⟩; linarith),
    if_neg (by rintro ⟨x, y⟩; linarith)]

lemma ag_none_big {a : ℚ} (h : 120 < a) : age_group (some a) = none := by
  rw [age_group_some, if_neg (by rintro ⟨x, y⟩; linarith),
    if_neg (by rintro ⟨x, y⟩; linarith), if_neg (by rintro ⟨x, y⟩; linarith),
    if_neg (by rintro ⟨x, y⟩; linarith)]

/-- Exhaustive description of the bucket assignment by region of the
age axis. -/
lemma age_group_cases (a : ℚ) :
    (a < 0 ∧ age_group (some a) = none) ∨
    ((0 ≤ a ∧ a ≤ 12) ∧ age_group (some a) = some .Child) ∨
    ((12 < a ∧ a ≤ 19) ∧ age_group (some a) = some .Teen) ∨
    ((19 < a ∧ a ≤ 59) ∧ age_group (some a) = some .Adult) ∨
    ((59 < a ∧ a ≤ 120) ∧ age_group (some a) = some .Senior) ∨
    (120 < a ∧ age_group (some a) = none) := by
  rcases lt_or_le a 0 with h | h0
  · exact Or.inl ⟨h, ag_none_neg h⟩
  rcases le_or_lt a 12 with h | h12
  · exact Or.inr (Or.inl ⟨⟨h0, h⟩, ag_child h0 h⟩)
  rcases le_or_lt a 19 with h | h19
  · exact Or.inr (Or.inr (Or.inl ⟨⟨h12, h⟩, ag_teen h12 h⟩))
  rcases le_or_lt a 59 with h | h59
  · exact Or.inr (Or.inr (Or.inr (Or.inl ⟨⟨h19, h⟩, ag_adult h19 h⟩)))
  rcases le_or_lt a 120 with h | h120
  · exact Or.inr (Or.inr (Or.inr (Or.inr (Or.inl ⟨⟨h59, h⟩, ag_senior h59 h⟩))))
  · exact Or.inr (Or.inr (Or.inr (Or.inr (Or.inr ⟨h120, ag_none_big h120⟩))))

lemma age_group_child_iff (a : ℚ) :
    age_group (some a) = some .Child ↔ 0 ≤ a ∧ a ≤ 12 := by
  constructor
  · intro h
    rcases age_group_cases a with ⟨h1, e⟩ | ⟨h1, e⟩ | ⟨h1, e⟩ | ⟨h1, e⟩ | ⟨h1, e⟩ | ⟨h1, e⟩ <;>
      rw [e] at h <;> first | exact h1 | simp at h
  · intro h; exact ag_child h.1 h.2

lemma age_group_teen_iff (a : ℚ) :
    age_group (some a) = some .Teen ↔ 12 < a ∧ a ≤ 19 := by
  constructor
  · intro h
    rcases age_group_cases a with ⟨h1, e⟩ | ⟨h1, e⟩ | ⟨h1, e⟩ | ⟨h1, e⟩ | ⟨h1, e⟩ | ⟨h1, e⟩ <;>
      rw [e] at h <;> first | exact h1 | simp at h
  · intro h; exact ag_teen h.1 h.2

lemma age_group_adult_iff (a : ℚ) :
    age_group (some a) = some .Adult ↔ 19 < a ∧ a ≤ 59 := by
  constructor
  · intro h
    rcases age_group_cases a with ⟨h1, e⟩ | ⟨h1, e⟩ | ⟨h1, e⟩ | ⟨h1, e⟩ | ⟨h1, e⟩ | ⟨h1, e⟩ <;>
      rw [e] at h <;> first | exact h1 | simp at h
  · intro h; exact ag_adult h.1 h.2

lemma age_group_senior_iff (a : ℚ) :
    age_group (some a) = some .Senior ↔ 59 < a ∧ a ≤ 120 := by
  constructor
  · intro h
    rcases age_group_cases a with ⟨h1, e⟩ | ⟨h1, e⟩ | ⟨h1, e⟩ | ⟨h1, e⟩ | ⟨h1, e⟩ | ⟨h1, e⟩ <;>
      rw [e] at h <;> first | exact h1 | simp at h
  · intro h; exact ag_senior h.1 h.2

lemma age_group_none_iff (a : ℚ) :
    age_group (some a) = none ↔ a < 0 ∨ 120 < a := by
  constructor
  · intro h
    rcases age_group_cases a with ⟨h1, e⟩ | ⟨h1, e⟩ | ⟨h1, e⟩ | ⟨h1, e⟩ | ⟨h1, e⟩ | ⟨h1, e⟩ <;>
      rw [e] at h <;> first | exact Or.inl h1 | exact Or.inr h1 | simp at h
  · rintro (h | h)
    · exact ag_none_neg h
    · exact ag_none_big h

/-- Lower bound of the age interval exactly as the spec writes it
(Child [0,12], Teen [13,19], Adult [20,59], Senior [60,120]). -/
def specAgeLo : AgeGroup → ℚ
  | .Child => 0
  | .Teen => 13
  | .Adult => 20
  | .Senior => 60

/-- Upper bound of the age interval exactly as the spec writes it. -/
def specAgeHi : AgeGroup → ℚ
  | .Child => 12
  | .Teen => 19
  | .Adult => 59
  | .Senior => 120

/-- Membership in the spec's written (closed) interval for a bucket. -/
def inSpecAgeInterval (g : AgeGroup) (a : ℚ) : Prop :=
  specAgeLo g ≤ a ∧ a ≤ specAgeHi g

instance (g : AgeGroup) (a : ℚ) : Decidable (inSpecAgeInterval g a) := by
  unfold inSpecAgeInterval; infer_instance

/-- The claim of C3 fails at age 12.5: `pd.cut` with `right=True` assigns
12.5 to Teen, yet 12.5 lies in none of the closed intervals as the spec
writes them (in particular not in Teen = [13,19]). -/
theorem claim_C3_counterexample :
    age_group (some (25 / 2)) = some AgeGroup.Teen ∧
      ¬ inSpecAgeInterval AgeGroup.Teen (25 / 2) ∧
      ¬ inSpecAgeInterval AgeGroup.Child (25 / 2) ∧
      ¬ inSpecAgeInterval AgeGroup.Adult (25 / 2) ∧
      ¬ inSpecAgeInterval AgeGroup.Senior (25 / 2) := by
  refine ⟨ag_teen (by norm_num) (by norm_num), ?_, ?_, ?_, ?_⟩ <;>
    · unfold inSpecAgeInterval specAgeLo specAgeHi
      norm_num

/-- Claim C3 (amended): every passenger row is bucketed with inclusive
upper bounds — Child [0,12], Teen (12,19], Adult (19,59], Senior
(59,120] — a missing age, or an age outside [0,120], gets no bucket; and
on whole-number ages the assignment agrees with the spec's written
closed intervals Child [0,12], Teen [13,19], Adult [20,59],
Senior [60,120]. -/
theorem claim_C3 (a : ℚ) :
    age_group none = none ∧
    (age_group (some a) = some AgeGroup.Child ↔ 0 ≤ a ∧ a ≤ 12) ∧
    (age_group (some a) = some AgeGroup.Teen ↔ 12 < a ∧ a ≤ 19) ∧
    (age_group (some a) = some AgeGroup.Adult ↔ 19 < a ∧ a ≤ 59) ∧
    (age_group (some a) = some AgeGroup.Senior ↔ 59 < a ∧ a ≤ 120) ∧
    (age_group (some a) = none ↔ a < 0 ∨ 120 < a) ∧
    (∀ n : Nat, (n : ℚ) = a →
      ∀ g, (age_group (some a) = some g ↔ inSpecAgeInterval g a)) := by
  refine ⟨rfl, age_group_child_iff a, age_group_teen_iff a, age_group_adult_iff a,
    age_group_senior_iff a, age_group_none_iff a, ?_⟩
  intro n hn g
  subst hn
  cases g
  · simpa [inSpecAgeInterval, specAgeLo, specAgeHi] using age_group_child_iff (n : ℚ)
  · rw [age_group_teen_iff]
    simp only [inSpecAgeInterval, specAgeLo, specAgeHi]
    constructor
    · rintro ⟨x, y⟩
      have hx : 12 < n := by exact_mod_cast x
      exact ⟨by exact_mod_cast hx, y⟩
    · rintro ⟨x, y⟩
      have hx : 13 ≤ n := by exact_mod_cast x
      exact ⟨by exact_mod_cast hx, y⟩
  · rw [age_group_adult_iff]
    simp only [inSpecAgeInterval, specAgeLo, specAgeHi]
    constructor
    · rintro ⟨x, y⟩
      have hx : 19 < n := by exact_mod_cast x
      exact ⟨by exact_mod_cast hx, y⟩
    · rintro ⟨x, y⟩
      have hx : 20 ≤ n := by exact_mod_cast x
      exact ⟨by exact_mod_cast hx, y⟩
  · rw [age_group_senior_iff]
    simp only [inSpecAgeInterval, specAgeLo, specAgeHi]
    constructor
    · rintro ⟨x, y⟩
      have hx : 59 < n := by exact_mod_cast x
      exact ⟨by exact_mod_cast hx, y⟩
    · rintro ⟨x, y⟩
      have hx : 60 ≤ n := by exact_mod_cast x
      exact ⟨by exact_mod_cast hx, y⟩

/-- Witness for the amended C3 at a concrete whole-number age. -/
theorem claim_C3_witness :
    age_group (some (15 : ℚ)) = some AgeGroup.Teen ↔
      inSpecAgeInterval AgeGroup.Teen (15 : ℚ) :=
  (claim_C3 (15 : ℚ)).2.2.2.2.2.2 15 rfl AgeGroup.Teen

/-- One output row of `survival_demographics`. -/
structure DemRow where
  pclass : Nat
  sex : String
  age_group : AgeGroup
  n_passengers : Nat
  n_survivors : Nat
  survival_rate : ℚ
deriving DecidableEq

/-- The grouping predicate of
`groupby(["Pclass", "Sex", "age_group"])`: does row `p` fall in the
group keyed `(c, s, g)`?  A row whose age has no bucket
(`dropna(subset=["age_group"])`) matches no key. -/
def demMatch (c : Nat) (s : String) (g : AgeGroup) (p : Passenger) : Bool :=
  decide (p.pclass = c ∧ p.sex = s ∧ age_group p.age = some g)

/-- The output row assigned to one key of the full cartesian index: the
`groupby(...).agg(...)` result `.reindex(full_index, fill_value=0)`
gives each key the count and survivor-sum of its matching rows (`0` and
`0` when no row matches), and line 59 sets `survival_rate = 0 if
n_passengers == 0 else n_survivors / n_passengers`. -/
def demCell (ps : List Passenger) (c : Nat) (s : String) (g : AgeGroup) : DemRow :=
  let grp := ps.filter (demMatch c s g)
  { pclass := c, sex := s, age_group := g,
    n_passengers := grp.length,
    n_survivors := grp.countP (fun p => p.survived),
    survival_rate :=
      if grp.length = 0 then 0
      else (grp.countP (fun p => p.survived) : ℚ) / (grp.length : ℚ) }

/-- Embedding of `pclasses = sorted(df["Pclass"].dropna().unique())`
(every row has a class, so `dropna` drops nothing). -/
def observedClasses (ps : List Passenger) : List Nat :=
  ((ps.map fun p => p.pclass).dedup).insertionSort (· ≤ ·)

/-- Embedding of `sexes = sorted(df["Sex"].dropna().unique())`. -/
def observedSexes (ps : List Passenger) : List String :=
  ((ps.map fun p => p.sex).dedup).insertionSort (· ≤ ·)

/-- Position of a bucket in the fixed categorical order
Child < Teen < Adult < Senior. -/
def ageIdx : AgeGroup → Nat
  | .Child => 0
  | .Teen => 1
  | .Adult => 2
  | .Senior => 3

/-- The key order of the final
`sort_values(["Pclass", "Sex", "age_group"])`: class ascending, then sex
lexically, then bucket in categorical order. -/
def demLe (r1 r2 : DemRow) : Prop :=
  r1.pclass < r2.pclass ∨
    (r1.pclass = r2.pclass ∧
      (r1.sex < r2.sex ∨ (r1.sex = r2.sex ∧ ageIdx r1.age_group ≤ ageIdx r2.age_group)))

instance : DecidableRel demLe := fun r1 r2 => by unfold demLe; infer_instance

/-- Embedding of `survival_demographics()`: build the full cartesian
index `MultiIndex.from_product([pclasses, sexes, age_cats])`, give each
key its (zero-filled) group aggregate, and sort by the group keys. -/
def survival_demographics (ps : List Passenger) : List DemRow :=
  ((observedClasses ps).flatMap fun c =>
    (observedSexes ps).flatMap fun s =>
      ageLabels.map fun g => demCell ps c s g).insertionSort demLe

lemma nodup_observedClasses (ps : List Passenger) : (observedClasses ps).Nodup :=
  ((List.perm_insertionSort _ _).nodup_iff).mpr (List.nodup_dedup _)

lemma nodup_observedSexes (ps : List Passenger) : (observedSexes ps).Nodup :=
  ((List.perm_insertionSort _ _).nodup_iff).mpr (List.nodup_dedup _)

lemma mem_observedClasses {ps : List Passenger} {c : Nat} :
    c ∈ observedClasses ps ↔ c ∈ ps.map fun p => p.pclass := by
  unfold observedClasses
  rw [(List.perm_insertionSort _ _).mem_iff, List.mem_dedup]

lemma mem_observedSexes {ps : List Passenger} {s : String} :
    s ∈ observedSexes ps ↔ s ∈ ps.map fun p => p.sex := by
  unfold observedSexes
  rw [(List.perm_insertionSort _ _).mem_iff, List.mem_dedup]

lemma demCell_pclass (ps : List Passenger) (c : Nat) (s : String) (g : AgeGroup) :
    (demCell ps c s g).pclass = c := rfl

lemma demCell_sex (ps : List Passenger) (c : Nat) (s : String) (g : AgeGroup) :
    (demCell ps c s g).sex = s := rfl

lemma demCell_age_group (ps : List Passenger) (c : Nat) (s : String) (g : AgeGroup) :
    (demCell ps c s g).age_group = g := rfl

lemma demCell_n_passengers (ps : List Passenger) (c : Nat) (s : String) (g : AgeGroup) :
    (demCell ps c s g).n_passengers = (ps.filter (demMatch c s g)).length := rfl

lemma demCell_n_survivors (ps : List Passenger) (c : Nat) (s : String) (g : AgeGroup) :
    (demCell ps c s g).n_survivors =
      (ps.filter (demMatch c s g)).countP (fun p => p.survived) := rfl

lemma demCell_survival_rate (ps : List Passenger) (c : Nat) (s : String) (g : AgeGroup) :
    (demCell ps c s g).survival_rate =
      if (ps.filter (demMatch c s g)).length = 0 then 0
      else ((ps.filter (demMatch c s g)).countP (fun p => p.survived) : ℚ) /
        ((ps.filter (demMatch c s g)).length : ℚ) := rfl

lemma sum_map_ite_one {α : Type _} [DecidableEq α] (l : List α) (a0 : α) :
    (l.map fun a => if a = a0 then 1 else 0).sum = l.count a0 := by
  induction l with
  | nil => simp
  | cons b l ih =>
    simp only [List.map_cons, List.sum_cons, ih, List.count_cons]
    by_cases hb : b = a0
    · subst hb; simp [Nat.add_comm]
    · simp [hb, Ne.symm hb]

lemma sum_map_ite_mul {α : Type _} [DecidableEq α] (l : List α) (a0 : α) (k : ℕ) :
    (l.map fun a => if a = a0 then k else 0).sum = l.count a0 * k := by
  induction l with
  | nil => simp
  | cons b l ih =>
    simp only [List.map_cons, List.sum_cons, ih, List.count_cons]
    by_cases hb : b = a0
    · subst hb; simp [Nat.add_mul, Nat.add_comm]
    · simp [hb, Ne.symm hb]

lemma length_flatMap_const {α β : Type _} (l : List α) (f : α → List β) (k : ℕ)
    (h : ∀ a ∈ l, (f a).length = k) : (l.flatMap f).length = l.length * k := by
  induction l with
  | nil => simp
  | cons b l ih =>
    simp only [List.flatMap_cons, List.length_append, List.length_cons]
    rw [h b (List.mem_cons_self b l), ih fun a ha => h a (List.mem_cons_of_mem b ha)]
    ring

lemma countP_age_block (ps : List Passenger) (c c0 : Nat) (s s0 : String) (g0 : AgeGroup) :
    (ageLabels.map fun g => demCell ps c s g).countP
        (fun r => decide (r.pclass = c0 ∧ r.sex = s0 ∧ r.age_group = g0)) =
      if c = c0 ∧ s = s0 then 1 else 0 := by
  rw [List.countP_map]
  by_cases hc : c = c0 ∧ s = s0
  · obtain ⟨h1, h2⟩ := hc
    subst h1; subst h2
    rw [if_pos ⟨rfl, rfl⟩]
    cases g0 <;>
      simp [ageLabels, List.countP_cons, Function.comp, demCell_pclass, demCell_sex,
        demCell_age_group]
  · rw [if_neg hc]
    refine List.countP_eq_zero.mpr ?_
    intro g hg
    simp only [Function.comp, demCell_pclass, demCell_sex, demCell_age_group,
      decide_eq_true_eq]
    rintro ⟨x, y, z⟩
    exact hc ⟨x, y⟩

lemma countP_sex_block (ps : List Passenger) (c c0 : Nat) (s0 : String) (g0 : AgeGroup) :
    ((observedSexes ps).flatMap fun s => ageLabels.map fun g => demCell ps c s g).countP
        (fun r => decide (r.pclass = c0 ∧ r.sex = s0 ∧ r.age_group = g0)) =
      if c = c0 then (observedSexes ps).count s0 else 0 := by
  rw [List.countP_flatMap]
  simp only [Function.comp_def, countP_age_block]
  by_cases hc : c = c0
  · subst hc
    rw [if_pos rfl]
    simp only [true_and]
    exact sum_map_ite_one (observedSexes ps) s0
  · rw [if_neg hc]
    simp [hc]

lemma countP_cells (ps : List Passenger) (c0 : Nat) (s0 : String) (g0 : AgeGroup) :
    ((observedClasses ps).flatMap fun c =>
      (observedSexes ps).flatMap fun s => ageLabels.map fun g => demCell ps c s g).countP
        (fun r => decide (r.pclass = c0 ∧ r.sex = s0 ∧ r.age_group = g0)) =
      (observedClasses ps).count c0 * (observedSexes ps).count s0 := by
  rw [List.countP_flatMap]
  simp only [Function.comp_def, countP_sex_block]
  exact sum_map_ite_mul (observedClasses ps) c0 ((observedSexes ps).count s0)

lemma mem_survival_demographics {ps : List Passenger} {r : DemRow} :
    r ∈ survival_demographics ps ↔
      ∃ c ∈ observedClasses ps, ∃ s ∈ observedSexes ps, ∃ g ∈ ageLabels,
        r = demCell ps c s g := by
  unfold survival_demographics
  rw [(List.perm_insertionSort _ _).mem_iff]
  simp only [List.mem_flatMap, List.mem_map]
  constructor
  · rintro ⟨c, hc, s, hs, g, hg, e⟩
    exact ⟨c, hc, s, hs, g, hg, e.symm⟩
  · rintro ⟨c, hc, s, hs, g, hg, e⟩
    exact ⟨c, hc, s, hs, g, hg, e.symm⟩

/-- Claim C1: the table returned by `survival_demographics` has exactly
one row per (class, sex, age-group) triple of the cartesian product of
the distinct observed classes, the distinct observed sexes and the four
fixed age groups — |classes|·|sexes|·4 rows, no duplicates, no missing
combinations — and a triple with no matching passengers carries
`n_passengers = 0` and `n_survivors = 0`. -/
theorem claim_C1 (ps : List Passenger) :
    (survival_demographics ps).length =
        (observedClasses ps).length * (observedSexes ps).length * 4 ∧
    (∀ c s g, c ∈ observedClasses ps → s ∈ observedSexes ps →
      (survival_demographics ps).countP
        (fun r => decide (r.pclass = c ∧ r.sex = s ∧ r.age_group = g)) = 1) ∧
    (∀ r ∈ survival_demographics ps,
      r.pclass ∈ observedClasses ps ∧ r.sex ∈ observedSexes ps) ∧
    (∀ r ∈ survival_demographics ps,
      (∀ p ∈ ps, ¬(p.pclass = r.pclass ∧ p.sex = r.sex ∧
        age_group p.age = some r.age_group)) →
        r.n_passengers = 0 ∧ r.n_survivors = 0) := by
  refine ⟨?_, ?_, ?_, ?_⟩
  · unfold survival_demographics
    rw [(List.perm_insertionSort _ _).length_eq]
    have hin : ∀ c ∈ observedClasses ps,
        ((observedSexes ps).flatMap fun s =>
          ageLabels.map fun g => demCell ps c s g).length =
          (observedSexes ps).length * 4 := by
      intro c hc
      exact length_flatMap_const _ _ 4 fun s hs => by simp [ageLabels]
    rw [length_flatMap_const _ _ ((observedSexes ps).length * 4) hin]
    ring
  · intro c s g hc hs
    unfold survival_demographics
    rw [List.Perm.countP_eq _ (List.perm_insertionSort _ _), countP_cells,
      List.count_eq_one_of_mem (nodup_observedClasses ps) hc,
      List.count_eq_one_of_mem (nodup_observedSexes ps) hs]
  · intro r hr
    rcases mem_survival_demographics.mp hr with ⟨c, hc, s, hs, g, hg, e⟩
    subst e
    rw [demCell_pclass, demCell_sex]
    exact ⟨hc, hs⟩
  · intro r hr hnone
    rcases mem_survival_demographics.mp hr with ⟨c, hc, s, hs, g, hg, e⟩
    subst e
    have hfil : ps.filter (demMatch c s g) = [] := by
      rw [List.filter_eq_nil_iff]
      intro p hp
      have hn := hnone p hp
      simp only [demCell_pclass, demCell_sex, demCell_age_group] at hn
      simp only [demMatch, decide_eq_true_eq]
      exact hn
    constructor
    · rw [demCell_n_passengers, hfil]; rfl
    · rw [demCell_n_survivors, hfil]; rfl

/-- A one-row table used as concrete input by the witnesses. -/
def psW : List Passenger :=
  [{ passengerId := 1, survived := true, pclass := 3, name := "Smith, John",
     sex := "male", age := some 30, sibSp := some 0, parch := some 0,
     fare := some 8 }]

/-- Witness for C1: on `psW` the triple (3, male, Adult) appears in
exactly one row. -/
theorem claim_C1_witness :
    (survival_demographics psW).countP
      (fun r => decide (r.pclass = 3 ∧ r.sex = "male" ∧
        r.age_group = AgeGroup.Adult)) = 1 :=
  (claim_C1 psW).2.1 3 "male" AgeGroup.Adult (by decide) (by decide)

/-- Claim C2: in every cell of `survival_demographics`, the rate is
exactly `n_survivors / n_passengers` for a non-empty cell and exactly 0
for an empty one, and it always lies in [0, 1]. -/
theorem claim_C2 (ps : List Passenger) (r : DemRow)
    (h : r ∈ survival_demographics ps) :
    r.n_survivors ≤ r.n_passengers ∧
    (r.n_passengers = 0 → r.survival_rate = 0) ∧
    (0 < r.n_passengers →
      r.survival_rate = (r.n_survivors : ℚ) / (r.n_passengers : ℚ)) ∧
    0 ≤ r.survival_rate ∧ r.survival_rate ≤ 1 := by
  rcases mem_survival_demographics.mp h with ⟨c, hc, s, hs, g, hg, e⟩
  subst e
  rw [demCell_n_passengers, demCell_n_survivors, demCell_survival_rate]
  have hk : (ps.filter (demMatch c s g)).countP (fun p => p.survived) ≤
      (ps.filter (demMatch c s g)).length := by
    rw [List.countP_eq_length_filter]
    exact List.length_filter_le _ _
  refine ⟨hk, ?_, ?_, ?_, ?_⟩
  · intro h0; rw [if_pos h0]
  · intro h0; rw [if_neg (Nat.pos_iff_ne_zero.mp h0)]
  · by_cases hz : (ps.filter (demMatch c s g)).length = 0
    · rw [if_pos hz]
    · rw [if_neg hz]
      positivity
  · by_cases hz : (ps.filter (demMatch c s g)).length = 0
    · rw [if_pos hz]; norm_num
    · rw [if_neg hz]
      have hn : (0 : ℚ) < ((ps.filter (demMatch c s g)).length : ℚ) := by
        exact_mod_cast Nat.pos_of_ne_zero hz
      rw [div_le_one hn]
      exact_mod_cast hk

/-- Witness for C2: the empty (3, male, Child) cell of `psW`'s table has
its rate inside [0, 1]. -/
theorem claim_C2_witness :
    0 ≤ (demCell psW 3 "male" AgeGroup.Child).survival_rate ∧
      (demCell psW 3 "male" AgeGroup.Child).survival_rate ≤ 1 := by
  have hmem : demCell psW 3 "male" AgeGroup.Child ∈ survival_demographics psW :=
    mem_survival_demographics.mpr
      ⟨3, by decide, "male", by decide, AgeGroup.Child, by decide, rfl⟩
  exact (claim_C2 psW _ hmem).2.2.2

/-- Embedding of the pandas median of a numeric column (used by
`df.groupby("Pclass")["Age"].median()`): sort the non-missing values; an
empty column gives `NaN` (`none`); an odd count gives the middle value;
an even count gives the mean of the two middle values. -/
def median (l : List ℚ) : Option ℚ :=
  if (l.insertionSort (· ≤ ·)).length = 0 then none
  else if (l.insertionSort (· ≤ ·)).length % 2 = 1 then
    some ((l.insertionSort (· ≤ ·)).getD ((l.insertionSort (· ≤ ·)).length / 2) 0)
  else
    some (((l.insertionSort (· ≤ ·)).getD ((l.insertionSort (· ≤ ·)).length / 2 - 1) 0 +
      (l.insertionSort (· ≤ ·)).getD ((l.insertionSort (· ≤ ·)).length / 2) 0) / 2)

lemma median_isSome {l : List ℚ} (h : l ≠ []) : ∃ m, median l = some m := by
  unfold median
  have h0 : ¬((l.insertionSort (· ≤ ·)).length = 0) := by
    rw [(List.perm_insertionSort _ _).length_eq, List.length_eq_zero]
    exact h
  rw [if_neg h0]
  by_cases hp : (l.insertionSort (· ≤ ·)).length % 2 = 1
  · rw [if_pos hp]; exact ⟨_, rfl⟩
  · rw [if_neg hp]; exact ⟨_, rfl⟩

/-- The non-missing ages of class `c`: the column whose median
`class_medians.loc[c]` is (pandas `median` skips `NaN`). -/
def classAges (ps : List Passenger) (c : Nat) : List ℚ :=
  (ps.filter fun p => decide (p.pclass = c)).filterMap fun p => p.age

/-- `class_medians.loc[c]` of line 153. -/
def classMedian (ps : List Passenger) (c : Nat) : Option ℚ :=
  median (classAges ps c)

/-- Embedding of the row lambda on lines 154–156:
`False if pd.isna(r["Age"]) else r["Age"] > class_medians.loc[r["Pclass"]]`
(a pandas comparison against an absent median is False). -/
def older_passenger (ps : List Passenger) (p : Passenger) : Bool :=
  match p.age with
  | none => false
  | some a =>
    match classMedian ps p.pclass with
    | none => false
    | some m => decide (m < a)

/-- Embedding of `determine_age_division()`: the base table with the
Boolean `older_passenger` column appended. -/
def determine_age_division (ps : List Passenger) : List (Passenger × Bool) :=
  ps.map fun p => (p, older_passenger ps p)

lemma older_passenger_none {ps : List Passenger} {p : Passenger}
    (h : p.age = none) : older_passenger ps p = false := by
  unfold older_passenger
  rw [h]

lemma older_passenger_some {ps : List Passenger} {p : Passenger} {a m : ℚ}
    (ha : p.age = some a) (hm : classMedian ps p.pclass = some m) :
    older_passenger ps p = decide (m < a) := by
  unfold older_passenger
  rw [ha, hm]

/-- Claim C4: the `older_passenger` flag is false for a missing age, and
for a present age it is exactly "age strictly above the class median"
(so equality with the median gives false) — the median over the
non-missing ages of the passenger's class, which exists because the
passenger's own age is among them. -/
theorem claim_C4 (ps : List Passenger) (p : Passenger) (hp : p ∈ ps) :
    (p.age = none → older_passenger ps p = false) ∧
    (∀ a, p.age = some a →
      ∃ m, classMedian ps p.pclass = some m ∧
        older_passenger ps p = decide (m < a)) := by
  constructor
  · exact older_passenger_none
  · intro a ha
    have hne : classAges ps p.pclass ≠ [] := by
      have hmem : a ∈ classAges ps p.pclass := by
        unfold classAges
        refine List.mem_filterMap.mpr ⟨p, List.mem_filter.mpr ⟨hp, by simp⟩, ha⟩
      intro h0
      rw [h0] at hmem
      exact (List.not_mem_nil a) hmem
    rcases median_isSome hne with ⟨m, hm⟩
    exact ⟨m, hm, older_passenger_some ha hm⟩

/-- Three class-3 passengers with ages 10, 20, 30, used by C4's witness:
the class median age is 20. -/
def pA : Passenger :=
  { passengerId := 2, survived := false, pclass := 3, name := "A, B",
    sex := "male", age := some 10, sibSp := some 0, parch := some 0,
    fare := none }

def pB : Passenger :=
  { passengerId := 3, survived := true, pclass := 3, name := "C, D",
    sex := "female", age := some 20, sibSp := some 0, parch := some 0,
    fare := some 5 }

def pW4 : Passenger :=
  { passengerId := 4, survived := true, pclass := 3, name := "E, F",
    sex := "female", age := some 30, sibSp := some 1, parch := some 0,
    fare := some 7 }

def psW4 : List Passenger := [pA, pB, pW4]

/-- Witness for C4: in `psW4` the class-3 median is 20 and the
30-year-old is flagged older. -/
theorem claim_C4_witness :
    classMedian psW4 3 = some 20 ∧ older_passenger psW4 pW4 = true := by
  have hcm : classMedian psW4 3 = some (20 : ℚ) := by decide
  refine ⟨hcm, ?_⟩
  obtain ⟨m, hm, he⟩ := (claim_C4 psW4 pW4 (by decide)).2 30 rfl
  have hp3 : pW4.pclass = 3 := rfl
  rw [hp3, hcm] at hm
  obtain rfl : (20 : ℚ) = m := Option.some.inj hm
  rw [he]
  decide

/-- One row of the grouped summary inside `visualize_age_division()`. -/
structure AgeDivRow where
  pclass : Nat
  older_passenger : Bool
  n_passengers : Nat
  n_survivors : Nat
  survival_rate : Option ℚ
deriving DecidableEq

/-- Ascending order on the `(Pclass, older_passenger)` group keys
(pandas sorts group keys; False sorts before True). -/
def ageDivKeyLe (k1 k2 : Nat × Bool) : Prop :=
  k1.1 < k2.1 ∨ (k1.1 = k2.1 ∧ (cond k1.2 1 0 : Nat) ≤ cond k2.2 1 0)

instance : DecidableRel ageDivKeyLe := fun k1 k2 => by
  unfold ageDivKeyLe; infer_instance

/-- The `(Pclass, older_passenger)` keys observed in the augmented
table — `groupby` produces only observed groups — in sorted order. -/
def ageDivKeys (ps : List Passenger) : List (Nat × Bool) :=
  (((determine_age_division ps).map fun x =>
    (x.1.pclass, x.2)).dedup).insertionSort ageDivKeyLe

/-- The summary row of one observed group key: count of
`PassengerId` (never null, so the group size), sum of `Survived`, and
`survival_rate = n_survivors / n_passengers.replace(0, pd.NA)` — the
division by `NA` propagates, so a zero count would leave the rate
undefined (`none`), never 0. -/
def ageDivCell (ps : List Passenger) (k : Nat × Bool) : AgeDivRow :=
  let grp := (determine_age_division ps).filter fun x =>
    decide (x.1.pclass = k.1 ∧ x.2 = k.2)
  { pclass := k.1, older_passenger := k.2,
    n_passengers := grp.length,
    n_survivors := grp.countP fun x => x.1.survived,
    survival_rate :=
      if grp.length = 0 then none
      else some ((grp.countP fun x => x.1.survived : ℚ) / (grp.length : ℚ)) }

/-- Embedding of the grouped table built on lines 163–167 of
`visualize_age_division()`. -/
def age_division_summary (ps : List Passenger) : List AgeDivRow :=
  (ageDivKeys ps).map fun k => ageDivCell ps k

lemma ageDivCell_n_passengers (ps : List Passenger) (k : Nat × Bool) :
    (ageDivCell ps k).n_passengers =
      ((determine_age_division ps).filter fun x =>
        decide (x.1.pclass = k.1 ∧ x.2 = k.2)).length := rfl

lemma ageDivCell_n_survivors (ps : List Passenger) (k : Nat × Bool) :
    (ageDivCell ps k).n_survivors =
      (((determine_age_division ps).filter fun x =>
        decide (x.1.pclass = k.1 ∧ x.2 = k.2)).countP fun x => x.1.survived) := rfl

lemma ageDivCell_survival_rate (ps : List Passenger) (k : Nat × Bool) :
    (ageDivCell ps k).survival_rate =
      (if ((determine_age_division ps).filter fun x =>
          decide (x.1.pclass = k.1 ∧ x.2 = k.2)).length = 0 then none
      else some (((((determine_age_division ps).filter fun x =>
          decide (x.1.pclass = k.1 ∧ x.2 = k.2)).countP fun x => x.1.survived) : ℚ) /
        ((((determine_age_division ps).filter fun x =>
          decide (x.1.pclass = k.1 ∧ x.2 = k.2)).length : ℚ)))) := rfl

/-- Claim C5: every row of the age-division summary is an observed
group, so its count is positive and its rate is exactly
survivors/count; a zero count would leave the rate undefined (`none`),
never forced to 0 — the asymmetry with `survival_demographics`'s
zero-fill is kept. -/
theorem claim_C5 (ps : List Passenger) (r : AgeDivRow)
    (h : r ∈ age_division_summary ps) :
    0 < r.n_passengers ∧
    (r.n_passengers = 0 → r.survival_rate = none) ∧
    r.survival_rate = some ((r.n_survivors : ℚ) / (r.n_passengers : ℚ)) := by
  rcases List.mem_map.mp h with ⟨k, hk, e⟩
  subst e
  have hk2 : k ∈ (determine_age_division ps).map fun x => (x.1.pclass, x.2) := by
    have := ((List.perm_insertionSort ageDivKeyLe _).mem_iff).mp hk
    exact List.mem_dedup.mp this
  rcases List.mem_map.mp hk2 with ⟨x, hx, hxk⟩
  subst hxk
  have hxg : x ∈ (determine_age_division ps).filter fun y =>
      decide (y.1.pclass = x.1.pclass ∧ y.2 = x.2) :=
    List.mem_filter.mpr ⟨hx, by simp⟩
  have hpos : 0 < ((determine_age_division ps).filter fun y =>
      decide (y.1.pclass = x.1.pclass ∧ y.2 = x.2)).length :=
    List.length_pos.mpr (List.ne_nil_of_mem hxg)
  have hne : ¬(((determine_age_division ps).filter fun y =>
      decide (y.1.pclass = x.1.pclass ∧ y.2 = x.2)).length = 0) :=
    Nat.pos_iff_ne_zero.mp hpos
  refine ⟨?_, ?_, ?_⟩
  · rw [ageDivCell_n_passengers]
    exact hpos
  · intro h0
    rw [ageDivCell_n_passengers] at h0
    exact absurd h0 hne
  · rw [ageDivCell_survival_rate, ageDivCell_n_passengers, ageDivCell_n_survivors,
      if_neg hne]

/-- Witness for C5 on the one-row table `psW`: the (3, false) group has
one member and rate survivors/count. -/
theorem claim_C5_witness :
    0 < (ageDivCell psW (3, false)).n_passengers ∧
      (ageDivCell psW (3, false)).survival_rate =
        some (((ageDivCell psW (3, false)).n_survivors : ℚ) /
          ((ageDivCell psW (3, false)).n_passengers : ℚ)) := by
  have hmem : ageDivCell psW (3, false) ∈ age_division_summary psW :=
    List.mem_map.mpr ⟨(3, false), by decide, rfl⟩
  exact ⟨(claim_C5 psW _ hmem).1, (claim_C5 psW _ hmem).2.2⟩

/-- Embedding of line 101:
`family_size = SibSp.fillna(0) + Parch.fillna(0) + 1`. -/
def family_size (p : Passenger) : Nat :=
  p.sibSp.getD 0 + p.parch.getD 0 + 1

/-- Ascending order on the `(Pclass, family_size)` group keys
(`sort_values(["Pclass", "family_size"])`). -/
def famKeyLe (k1 k2 : Nat × Nat) : Prop :=
  k1.1 < k2.1 ∨ (k1.1 = k2.1 ∧ k1.2 ≤ k2.2)

instance : DecidableRel famKeyLe := fun k1 k2 => by
  unfold famKeyLe; infer_instance

/-- The `(Pclass, family_size)` keys observed in the table — `groupby`
produces only observed groups, no completion — in sorted order. -/
def famKeys (ps : List Passenger) : List (Nat × Nat) :=
  ((ps.map fun p => (p.pclass, family_size p)).dedup).insertionSort famKeyLe

/-- One output row of `family_groups`. -/
structure FamRow where
  pclass : Nat
  family_size : Nat
  n_passengers : Nat
  avg_fare : Option ℚ
  min_fare : Option ℚ
  max_fare : Option ℚ
deriving DecidableEq

/-- The non-missing fares of the members of group `k` — pandas `mean`,
`min` and `max` skip `NaN` and never fill it. -/
def groupFares (ps : List Passenger) (k : Nat × Nat) : List ℚ :=
  (ps.filter fun p => decide (p.pclass = k.1 ∧ family_size p = k.2)).filterMap
    fun p => p.fare

/-- The summary row of one observed `(Pclass, family_size)` key: count
of `PassengerId` (never null, so the group size), and mean/min/max of
the non-missing fares — `NaN` (`none`) when every fare is missing. -/
def famCell (ps : List Passenger) (k : Nat × Nat) : FamRow :=
  { pclass := k.1, family_size := k.2,
    n_passengers :=
      (ps.filter fun p => decide (p.pclass = k.1 ∧ family_size p = k.2)).length,
    avg_fare :=
      if (groupFares ps k).length = 0 then none
      else some ((groupFares ps k).sum / ((groupFares ps k).length : ℚ)),
    min_fare := (groupFares ps k).min?,
    max_fare := (groupFares ps k).max? }

/-- Embedding of `family_groups()`. -/
def family_groups (ps : List Passenger) : List FamRow :=
  (famKeys ps).map fun k => famCell ps k

lemma famCell_avg_fare (ps : List Passenger) (k : Nat × Nat) :
    (famCell ps k).avg_fare =
      (if (groupFares ps k).length = 0 then none
      else some ((groupFares ps k).sum / ((groupFares ps k).length : ℚ))) := rfl

lemma famCell_min_fare (ps : List Passenger) (k : Nat × Nat) :
    (famCell ps k).min_fare = (groupFares ps k).min? := rfl

lemma famCell_max_fare (ps : List Passenger) (k : Nat × Nat) :
    (famCell ps k).max_fare = (groupFares ps k).max? := rfl

instance : Std.Antisymm fun x1 x2 : ℚ => x1 ≤ x2 :=
  ⟨fun h1 h2 => le_antisymm h1 h2⟩

lemma rat_min?_spec {l : List ℚ} {m : ℚ} (h : l.min? = some m) :
    m ∈ l ∧ ∀ b ∈ l, m ≤ b :=
  (List.min?_eq_some_iff (fun a => le_refl a) (fun a b => min_choice a b)
    (fun a b c => le_min_iff)).mp h

lemma rat_max?_spec {l : List ℚ} {M : ℚ} (h : l.max? = some M) :
    M ∈ l ∧ ∀ b ∈ l, b ≤ M :=
  (List.max?_eq_some_iff (fun a => le_refl a) (fun a b => max_choice a b)
    (fun a b c => max_le_iff)).mp h

/-- Claim C6: `family_size` is `SibSp + Parch + 1` with missing
components treated as 0, and every output row of `family_groups` (whose
key is an observed one) has `family_size ≥ 1`. -/
theorem claim_C6 (ps : List Passenger) :
    (∀ p : Passenger, family_size p = p.sibSp.getD 0 + p.parch.getD 0 + 1) ∧
    ∀ r ∈ family_groups ps,
      (∃ p ∈ ps, r.pclass = p.pclass ∧ r.family_size = family_size p) ∧
      1 ≤ r.family_size := by
  refine ⟨fun p => rfl, ?_⟩
  intro r hr
  rcases List.mem_map.mp hr with ⟨k, hk, e⟩
  subst e
  have hk2 : k ∈ ps.map fun p => (p.pclass, family_size p) := by
    have hkd := ((List.perm_insertionSort famKeyLe _).mem_iff).mp hk
    exact List.mem_dedup.mp hkd
  rcases List.mem_map.mp hk2 with ⟨p, hp, hkp⟩
  subst hkp
  refine ⟨⟨p, hp, rfl, rfl⟩, ?_⟩
  show 1 ≤ family_size p
  unfold family_size
  omega

/-- Witness for C6 on `psW`: the single observed group (3, 1) has
family size at least 1. -/
theorem claim_C6_witness : 1 ≤ (famCell psW (3, 1)).family_size := by
  have hmem : famCell psW (3, 1) ∈ family_groups psW :=
    List.mem_map.mpr ⟨(3, 1), by decide, rfl⟩
  exact ((claim_C6 psW).2 _ hmem).2

/-- Claim C9: in a `family_groups` row whose members all have missing
fares, the mean, min and max fares are all undefined (`none`), never
zero-filled. -/
theorem claim_C9 (ps : List Passenger) (r : FamRow) (h : r ∈ family_groups ps)
    (hall : ∀ p ∈ ps, p.pclass = r.pclass → family_size p = r.family_size →
      p.fare = none) :
    r.avg_fare = none ∧ r.min_fare = none ∧ r.max_fare = none := by
  rcases List.mem_map.mp h with ⟨k, hk, e⟩
  subst e
  have hfares : groupFares ps k = [] := by
    unfold groupFares
    rw [List.filterMap_eq_nil_iff]
    intro p hp
    rcases List.mem_filter.mp hp with ⟨hps, hcond⟩
    simp only [decide_eq_true_eq] at hcond
    exact hall p hps hcond.1 hcond.2
  refine ⟨?_, ?_, ?_⟩
  · rw [famCell_avg_fare, hfares]
    rfl
  · rw [famCell_min_fare, hfares]
    rfl
  · rw [famCell_max_fare, hfares]
    rfl

/-- A one-row table whose only passenger has a missing fare. -/
def psW9 : List Passenger := [pA]

/-- Witness for C9: in `psW9` the (3, 1) group consists of the one
fare-less passenger, so all three fare statistics are undefined. -/
theorem claim_C9_witness :
    (famCell psW9 (3, 1)).avg_fare = none ∧
      (famCell psW9 (3, 1)).min_fare = none ∧
      (famCell psW9 (3, 1)).max_fare = none := by
  have hmem : famCell psW9 (3, 1) ∈ family_groups psW9 :=
    List.mem_map.mpr ⟨(3, 1), by decide, rfl⟩
  exact claim_C9 psW9 _ hmem (by decide)

/-- Claim C10: in a `family_groups` row with at least one non-missing
fare (so a defined mean), the min and max fares are defined and
`min_fare ≤ avg_fare ≤ max_fare`. -/
theorem claim_C10 (ps : List Passenger) (r : FamRow) (h : r ∈ family_groups ps)
    (a : ℚ) (ha : r.avg_fare = some a) :
    ∃ m M, r.min_fare = some m ∧ r.max_fare = some M ∧ m ≤ a ∧ a ≤ M := by
  rcases List.mem_map.mp h with ⟨k, hk, e⟩
  subst e
  rw [famCell_avg_fare] at ha
  by_cases hz : (groupFares ps k).length = 0
  · rw [if_pos hz] at ha
    exact Option.noConfusion ha
  · rw [if_neg hz] at ha
    obtain ha2 : (groupFares ps k).sum / ((groupFares ps k).length : ℚ) = a :=
      Option.some.inj ha
    have hne : groupFares ps k ≠ [] := by
      intro h0
      rw [h0] at hz
      exact hz rfl
    rcases hmin : (groupFares ps k).min? with _ | m
    · rw [List.min?_eq_none_iff] at hmin
      exact absurd hmin hne
    rcases hmax : (groupFares ps k).max? with _ | M
    · rw [List.max?_eq_none_iff] at hmax
      exact absurd hmax hne
    have hlen : (0 : ℚ) < ((groupFares ps k).length : ℚ) := by
      exact_mod_cast Nat.pos_of_ne_zero hz
    refine ⟨m, M, by rw [famCell_min_fare, hmin], by rw [famCell_max_fare, hmax], ?_, ?_⟩
    · have hms := rat_min?_spec hmin
      have hsum : ((groupFares ps k).length : ℚ) * m ≤ (groupFares ps k).sum := by
        have hc := List.card_nsmul_le_sum (groupFares ps k) m hms.2
        simpa [nsmul_eq_mul] using hc
      rw [← ha2, le_div_iff hlen]
      calc m * ((groupFares ps k).length : ℚ)
          = ((groupFares ps k).length : ℚ) * m := by ring
        _ ≤ (groupFares ps k).sum := hsum
    · have hMs := rat_max?_spec hmax
      have hsum : (groupFares ps k).sum ≤ ((groupFares ps k).length : ℚ) * M := by
        have hc := List.sum_le_card_nsmul (groupFares ps k) M hMs.2
        simpa [nsmul_eq_mul] using hc
      rw [← ha2, div_le_iff hlen]
      calc (groupFares ps k).sum
          ≤ ((groupFares ps k).length : ℚ) * M := hsum
        _ = M * ((groupFares ps k).length : ℚ) := by ring

/-- Witness for C10 on `psW4`: the (3, 1) group has exactly one
non-missing fare, 5, so min = max = 5 and the mean 5 sits between. -/
theorem claim_C10_witness :
    (famCell psW4 (3, 1)).min_fare = some 5 ∧
      (famCell psW4 (3, 1)).max_fare = some 5 ∧
      (5 : ℚ) ≤ 5 ∧ (5 : ℚ) ≤ 5 := by
  have hmem : famCell psW4 (3, 1) ∈ family_groups psW4 :=
    List.mem_map.mpr ⟨(3, 1), by decide, rfl⟩
  have hL : groupFares psW4 (3, 1) = [5] := by decide
  have ha : (famCell psW4 (3, 1)).avg_fare = some 5 := by
    rw [famCell_avg_fare, hL]
    norm_num
  obtain ⟨m, M, hm, hM, h1, h2⟩ := claim_C10 psW4 _ hmem 5 ha
  have hLmin : (groupFares psW4 (3, 1)).min? = some (5 : ℚ) := by
    rw [hL]
    rfl
  have hLmax : (groupFares psW4 (3, 1)).max? = some (5 : ℚ) := by
    rw [hL]
    rfl
  rw [famCell_min_fare, hLmin] at hm
  rw [famCell_max_fare, hLmax] at hM
  obtain rfl : (5 : ℚ) = m := Option.some.inj hm
  obtain rfl : (5 : ℚ) = M := Option.some.inj hM
  exact ⟨by rw [famCell_min_fare, hLmin], by rw [famCell_max_fare, hLmax], h1, h2⟩

/-- Python `s.split(",", 1)` on a character sequence: the text before
the first comma, and — when a comma exists — the remainder after it. -/
def split1 : List Char → List Char × Option (List Char)
  | [] => ([], none)
  | c :: cs =>
    if c = ',' then ([], some cs)
    else
      let r := split1 cs
      (c :: r.1, r.2)

/-- Python `str.strip()` on a character sequence: drop leading and
trailing whitespace. -/
def trimChars (l : List Char) : List Char :=
  ((l.dropWhile Char.isWhitespace).reverse.dropWhile Char.isWhitespace).reverse

/-- Embedding of line 120,
`df["Name"].str.split(",", n=1).str[0].str.strip()`, applied to one
name: element 0 of the one-split is taken, then stripped. -/
def lastName (s : String) : String :=
  String.mk (trimChars (split1 s.toList).1)

/-- Written from the spec's wording, for the refinement check of C7:
"the substring preceding the first comma in the full name field, with
leading/trailing whitespace removed; if no comma is present, the whole
trimmed name is the last name". -/
def lastNameSpec (s : String) : String :=
  String.mk (trimChars (s.toList.takeWhile fun c => decide (c ≠ ',')))

lemma split1_fst_eq_takeWhile (l : List Char) :
    (split1 l).1 = l.takeWhile fun c => decide (c ≠ ',') := by
  induction l with
  | nil => rfl
  | cons c cs ih =>
    by_cases hc : c = ','
    · subst hc
      simp [split1, List.takeWhile_cons]
    · simp [split1, hc, List.takeWhile_cons, ih]

/-- The descending-count order of
`value_counts().sort_values(ascending=False)`. -/
def countDesc (k1 k2 : String × Nat) : Prop := k2.2 ≤ k1.2

instance : DecidableRel countDesc := fun k1 k2 => by
  unfold countDesc; infer_instance

/-- Embedding of `last_names()`: the distinct extracted last names with
their occurrence counts, ordered by descending count. -/
def last_names (ps : List Passenger) : List (String × Nat) :=
  (((ps.map fun p => lastName p.name).dedup).map fun s =>
    (s, (ps.map fun p => lastName p.name).count s)).insertionSort countDesc

/-- Claim C7: the counted last name is exactly the text before the
first comma, trimmed; with no comma the whole trimmed name; and the
spec's two examples evaluate as written. -/
theorem claim_C7 :
    (∀ s : String, lastName s = lastNameSpec s) ∧
    (∀ s : String, (∀ c ∈ s.toList, c ≠ ',') →
      lastName s = String.mk (trimChars s.toList)) ∧
    lastName "Smith, John" = "Smith" ∧
    lastName "O'Brien, Mary" = "O'Brien" := by
  refine ⟨?_, ?_, by decide, by decide⟩
  · intro s
    unfold lastName lastNameSpec
    rw [split1_fst_eq_takeWhile]
  · intro s h
    unfold lastName
    rw [split1_fst_eq_takeWhile]
    have ht : (s.toList.takeWhile fun c => decide (c ≠ ',')) = s.toList := by
      rw [List.takeWhile_eq_self_iff]
      intro c hc
      simpa using h c hc
    rw [ht]

/-- Witness for C7's no-comma clause at a concrete name. -/
theorem claim_C7_witness :
    lastName "Brown" = String.mk (trimChars ("Brown").toList) :=
  claim_C7.2.1 "Brown" (by decide)

/-- Claim C8: the occurrence counts returned by `last_names` sum to the
number of passenger rows. -/
theorem claim_C8 (ps : List Passenger) :
    ((last_names ps).map fun x => x.2).sum = ps.length := by
  unfold last_names
  rw [List.Perm.sum_eq ((List.perm_insertionSort countDesc _).map fun x => x.2)]
  rw [List.map_map]
  have hcomp : ((ps.map fun p => lastName p.name).dedup.map
      ((fun x => x.2) ∘ fun s => (s, (ps.map fun p => lastName p.name).count s))) =
      ((ps.map fun p => lastName p.name).dedup.map fun s =>
        (ps.map fun p => lastName p.name).count s) := rfl
  rw [hcomp, List.sum_map_count_dedup_eq_length, List.length_map]

/-- Witness for C8 on the one-row table `psW`. -/
theorem claim_C8_witness :
    ((last_names psW).map fun x => x.2).sum = psW.length :=
  claim_C8 psW
